import Mathlib

/-!
Verification development for the oak logging library (San7o/oak).

The definitions below are a shallow embedding of the C++ sources:

* `src/include/oak/oak.hpp` (levels, destinations, queue elements, the
  `logger` static state, the inline producer API `log`, `log_to_stdout`,
  `log_to_file`, `log_to_socket`, `get_level`, `is_file_open`, ...);
* `src/src/oak.cpp` (`set_file`, `close_file`, `close_socket`,
  `add_to_queue`, `writer`, `init_writer`, `stop_writer`,
  `settings_file`, the string overloads of `log_to_file` /
  `log_to_socket`).

Sequential producer-side functions become pure state transformers on
`LoggerState`; control-flow effects that matter to the claims (whether
the formatting routine `log_to_string` was invoked, which enqueues were
performed, which OS file descriptors were closed) are made visible as
explicit event lists.  The writer thread and its interaction with
producers and `stop_writer` are modelled as a labelled-free small-step
transition system `Step` on `Sys`, where the mutex `log_mutex` is the
`lockHeld` flag: a producer `enq` step can fire only while the writer
does not hold the lock, exactly as `add_to_queue` must acquire
`log_mutex`.
-/

/-- Log severity levels, from `enum class level` in `oak.hpp`
(`debug = 0, info, warn, error, output, disabled`). -/
inductive Level
  | debug
  | info
  | warn
  | error
  | output
  | disabled
deriving DecidableEq

/-- Numeric value of a level, matching the C++ underlying enum values;
`enum class` comparisons such as `get_level() > lvl` compare these. -/
def levelNat : Level → Nat
  | Level.debug => 0
  | Level.info => 1
  | Level.warn => 2
  | Level.error => 3
  | Level.output => 4
  | Level.disabled => 5

/-- Output destinations, from `enum class destination` in `oak.hpp`
(`std_out = 0, file, socket`). -/
inductive Destination
  | std_out
  | file
  | socket
deriving DecidableEq

/-- One pending output record, from `struct queue_element`
(`std::string message; oak::destination dest;`). -/
structure QueueElement where
  message : String
  dest : Destination
deriving DecidableEq

/-- The static state of `struct logger` in `oak.hpp` / `oak.cpp`:
`flag_bits`, `log_level`, `log_file` (abstracted to whether it is
open), `log_queue`, `close_writer`, `log_socket`.  The mutex, the
condition variable and the thread handle are modelled at the
transition-system level, not as data. -/
structure LoggerState where
  flag_bits : Nat
  log_level : Level
  fileOpen : Bool
  log_queue : List QueueElement
  close_writer : Bool
  log_socket : Int
deriving DecidableEq

/-- The initial values of the statics in `oak.cpp`: `flag_bits = 1`,
`log_level = warn`, `log_file` closed, empty queue,
`close_writer = false`, `log_socket = -1`. -/
def initLogger : LoggerState :=
  { flag_bits := 1
    log_level := Level.warn
    fileOpen := false
    log_queue := []
    close_writer := false
    log_socket := -1 }

/-- Embedding of `oak::get_level` (reads `logger::log_level` under the
lock; atomic here). -/
def get_level (s : LoggerState) : Level :=
  s.log_level

/-- Embedding of `oak::is_file_open` (reads `logger::log_file.is_open()`). -/
def is_file_open (s : LoggerState) : Bool :=
  s.fileOpen

/-- Embedding of `oak::set_level`. -/
def set_level (lvl : Level) (s : LoggerState) : LoggerState :=
  { s with log_level := lvl }

/-- Embedding of `oak::add_to_queue`: under `log_mutex`, push the record
at the back of `logger::log_queue` (then `notify_one`). -/
def add_to_queue (msg : String) (d : Destination) (s : LoggerState) : LoggerState :=
  { s with log_queue := s.log_queue ++ [⟨msg, d⟩] }

/-- Producer-side control-flow events: `format` marks a call of the
formatting routine `log_to_string`; `enqueue` marks a call of
`add_to_queue`. -/
inductive Event
  | format
  | enqueue (msg : String) (d : Destination)
deriving DecidableEq

/-- Embedding of the string overload `oak::log_to_stdout(const std::string &)`:
unconditionally enqueue the string tagged `std_out`. -/
def log_to_stdout_str (msg : String) (s : LoggerState) : LoggerState × List Event :=
  (add_to_queue msg Destination.std_out s, [Event.enqueue msg Destination.std_out])

/-- Embedding of the string overload `oak::log_to_file(const std::string &)`
in `oak.cpp`: enqueue tagged `file` only if the log file is open. -/
def log_to_file_str (msg : String) (s : LoggerState) : LoggerState × List Event :=
  if is_file_open s then (add_to_queue msg Destination.file s, [Event.enqueue msg Destination.file])
  else (s, [])

/-- Embedding of the string overload `oak::log_to_socket(const std::string &)`
in `oak.cpp`: enqueue tagged `socket` only if `logger::log_socket > 0`. -/
def log_to_socket_str (msg : String) (s : LoggerState) : LoggerState × List Event :=
  if s.log_socket > 0 then (add_to_queue msg Destination.socket s, [Event.enqueue msg Destination.socket])
  else (s, [])

/-- Embedding of the variadic template `oak::log(const level &, const std::string &, Args...)`.
The formatted string produced by `log_to_string` is the parameter `msg`
(formatting itself is external to the core); the `Event.format` entry
records that `log_to_string` was invoked.  Control flow follows the
source: early return when `get_level() > lvl`; otherwise format once,
`log_to_stdout(formatted)`, then `log_to_file(formatted)` if
`is_file_open()`, then `log_to_socket(formatted)` if
`logger::log_socket > 0`. -/
def log (lvl : Level) (msg : String) (s : LoggerState) : LoggerState × List Event :=
  if levelNat (get_level s) > levelNat lvl then (s, [])
  else
    let p1 := log_to_stdout_str msg s
    let p2 := if is_file_open p1.1 then log_to_file_str msg p1.1 else (p1.1, [])
    let p3 := if p2.1.log_socket > 0 then log_to_socket_str msg p2.1 else (p2.1, [])
    (p3.1, Event.format :: (p1.2 ++ p2.2 ++ p3.2))

/-- Embedding of the variadic template
`oak::log_to_file(const level &, const std::string &, Args...)` in
`oak.hpp`: it returns early only when `get_level() > lvl` AND the file
is not open; otherwise it formats and enqueues tagged `file` with no
further check. -/
def log_to_file_fmt (lvl : Level) (msg : String) (s : LoggerState) : LoggerState × List Event :=
  if levelNat (get_level s) > levelNat lvl ∧ is_file_open s = false then (s, [])
  else (add_to_queue msg Destination.file s, [Event.format, Event.enqueue msg Destination.file])

/-- Embedding of `oak::close_file`: under the lock, close `log_file`
if it is open. -/
def close_file (s : LoggerState) : LoggerState :=
  if s.fileOpen then { s with fileOpen := false } else s

/-- OS-level side effects of the configuration functions: `closeFd n`
records a `close(n)` system call. -/
inductive OsEvent
  | closeFd (fd : Int)
deriving DecidableEq

/-- Embedding of `oak::close_socket`: under the lock, if
`logger::log_socket > 0` then `close(logger::log_socket)`.  Note the
source never assigns to `logger::log_socket` here, so the field is
returned unchanged. -/
def close_socket (s : LoggerState) : LoggerState × List OsEvent :=
  if s.log_socket > 0 then (s, [OsEvent.closeFd s.log_socket]) else (s, [])

/-- Abstraction of the parts of the environment that `set_file` and
`settings_file` consult: `std::filesystem::exists`, whether
`std::ofstream::open` succeeds (`is_open()` afterwards), and whether
the stream is `good()` after opening. -/
structure FS where
  pathExists : String → Bool
  openOk : String → Bool
  openGood : String → Bool

/-- Embedding of `oak::set_file` in `oak.cpp`: under the lock, close
the current file if open; error if the path does not exist; open in
append mode; error if not open afterwards; error if the stream is not
good (the file stays open in that case); else return `0`. -/
def set_file (fs : FS) (file : String) (s : LoggerState) :
    Except String Int × LoggerState :=
  let s0 := if s.fileOpen then { s with fileOpen := false } else s
  if fs.pathExists file = false then (Except.error "File does not exist", s0)
  else
    let s1 := { s0 with fileOpen := fs.openOk file }
    if s1.fileOpen = false then (Except.error "Could not open log file", s1)
    else if fs.openGood file = false then (Except.error "Error opening log file", s1)
    else (Except.ok 0, s1)

/-- Characters accepted by C `isspace` in the default locale, used by
the whitespace stripping in `settings_file`. -/
def isSpaceChar (c : Char) : Bool :=
  c == ' ' || c == '\t' || c == '\n' || c == '\x0b' || c == '\x0c' || c == '\r'

/-- Embedding of `erase(remove_if(..., isspace))` on a line fragment. -/
def stripSpace (l : List Char) : List Char :=
  l.filter (fun c => !isSpaceChar c)

/-- Embedding of `line.substr(0, line.find('='))`: everything before the
first `'='`, or the whole line when there is none. -/
def keyOf (line : List Char) : List Char :=
  line.takeWhile (fun c => c != '=')

/-- Embedding of `line.substr(line.find('=') + 1)`: everything after the
first `'='`; when there is no `'='`, `find` returns `npos` and
`npos + 1` wraps to `0`, so the whole line is returned. -/
def valueOf (line : List Char) : List Char :=
  if line.contains '=' then (line.dropWhile (fun c => c != '=')).tail
  else line

/-- Split a flags value at every comma, as the `while (value.find(','))`
loop of `settings_file` does. -/
def splitCommas : List Char → List (List Char)
  | [] => [[]]
  | c :: rest =>
    if c = ',' then [] :: splitCommas rest
    else
      match splitCommas rest with
      | [] => [[c]]
      | w :: ws => (c :: w) :: ws

/-- The flag-name table of the flags branch of `settings_file`, giving
the numeric value of `oak::flags` that `add_flags` ORs in. -/
def flagBitOf (w : List Char) : Option Nat :=
  if w = "none".data then some 0
  else if w = "level".data then some 1
  else if w = "date".data then some 2
  else if w = "time".data then some 4
  else if w = "pid".data then some 8
  else if w = "tid".data then some 16
  else if w = "json".data then some 32
  else none

/-- The flags loop of `settings_file`: starting from bits already reset
by `set_flags(flags::none)`, OR in each comma-separated flag with
`add_flags`, stopping with `"Invalid flags in file"` at the first
unknown name (bits accumulated so far stay applied, as in the source). -/
def flagsLoop : List (List Char) → Nat → Nat × Option String
  | [], bits => (bits, none)
  | w :: ws, bits =>
    match flagBitOf w with
    | some b => flagsLoop ws (bits ||| b)
    | none => (bits, some "Invalid flags in file")

/-- The level-name table of the level branch of `settings_file`
(`debug`, `info`, `warn`, `error`, `output`; anything else is invalid). -/
def levelOfName (v : List Char) : Option Level :=
  if v = "debug".data then some Level.debug
  else if v = "info".data then some Level.info
  else if v = "warn".data then some Level.warn
  else if v = "error".data then some Level.error
  else if v = "output".data then some Level.output
  else none

/-- One iteration of the `settings_file` line loop: skip empty lines;
split into whitespace-stripped key and value; dispatch on the key as in
the source, returning the (possibly partially) updated state and the
error message if the line is invalid. -/
def processLine (fs : FS) (line : List Char) (s : LoggerState) :
    LoggerState × Option String :=
  if line.length = 0 then (s, none)
  else
    let key := stripSpace (keyOf line)
    let value := stripSpace (valueOf line)
    if key = "level".data then
      match levelOfName value with
      | some lvl => (set_level lvl s, none)
      | none => (s, some "Invalid log level in file")
    else if key = "flags".data then
      let r := flagsLoop (splitCommas value) 0
      ({ s with flag_bits := r.1 }, r.2)
    else if key = "file".data then
      match set_file fs (String.mk value) s with
      | (Except.ok _, s1) => (s1, none)
      | (Except.error _, s1) => (s1, some "Could not open file")
    else (s, some "Invalid key in file")

/-- The `settings_file` line loop over the whole file contents: apply
lines in order, stopping at the first invalid one with its error and
the state as mutated so far. -/
def runLines (fs : FS) : List (List Char) → LoggerState →
    Except String Int × LoggerState
  | [], s => (Except.ok 0, s)
  | l :: ls, s =>
    match processLine fs l s with
    | (s1, some e) => (Except.error e, s1)
    | (s1, none) => runLines fs ls s1

/-- Embedding of `oak::settings_file`: error on an empty path, error on
a nonexistent path, otherwise process the file's lines in order. -/
def settings_file (fs : FS) (path : String) (content : List (List Char))
    (s : LoggerState) : Except String Int × LoggerState :=
  if path.length = 0 then (Except.error "Settings file path is empty", s)
  else if fs.pathExists path = false then (Except.error "Settings file does not exist", s)
  else runLines fs content s

/-- Validity of a single settings line, following the spec's wording:
a line is acceptable when it is empty, or its key is `level` with a
valid level value, `flags` with only valid flag names, or `file` with
a value naming a file that exists and can be opened. -/
def lineOk (fs : FS) (line : List Char) : Bool :=
  line.length = 0 ||
  (let key := stripSpace (keyOf line)
   let value := stripSpace (valueOf line)
   if key = "level".data then (levelOfName value).isSome
   else if key = "flags".data then (flagsLoop (splitCommas value) 0).2.isNone
   else if key = "file".data then
     fs.pathExists (String.mk value) && fs.openOk (String.mk value) &&
       fs.openGood (String.mk value)
   else false)

/-- Program counter of the writer thread of `oak::writer`:
`check` is the outer `while (!close_writer.load())` test, `waiting` is
being blocked inside `log_cv.wait`, `draining` is the inner
`while (!log_queue.empty())` loop (the `unique_lock` on `log_mutex` is
held there), `exited` means `writer` has returned. -/
inductive WPC
  | check
  | waiting
  | draining
  | exited
deriving DecidableEq

/-- One dispatch performed by the writer's `switch (elem.dest)`: the
record written to its sink, together with whether `log_mutex` was held
by the writer at the moment of the write. -/
structure DispatchEvent where
  elem : QueueElement
  lockHeld : Bool
deriving DecidableEq

/-- The records of a list of dispatch events, in dispatch order. -/
def dispElems (l : List DispatchEvent) : List QueueElement :=
  l.map (fun ev => ev.elem)

/-- Global state of the concurrent system: the shared `logger` state,
the writer's program counter, whether the writer currently holds
`log_mutex`, the dispatches performed so far, and (ghost) the full
sequence of records ever enqueued, in enqueue order. -/
structure Sys where
  st : LoggerState
  pc : WPC
  lockHeld : Bool
  dispatched : List DispatchEvent
  history : List QueueElement
deriving DecidableEq

/-- The system state right after `init_writer()` on the freshly
initialized statics: the writer thread is at its outer loop test and
holds no lock; nothing has been enqueued or dispatched. -/
def initSys : Sys :=
  { st := initLogger
    pc := WPC.check
    lockHeld := false
    dispatched := []
    history := [] }

/-- Writer-thread transitions of `oak::writer`, read off the source:
the outer test either exits (flag set) or proceeds towards the wait;
the wait returns when its predicate `!log_queue.empty() || close_writer`
holds, reacquiring `log_mutex`; the inner loop pops the front record and
writes it to its sink while still holding the lock; when the queue is
empty the `unique_lock` is destroyed (released) and control returns to
the outer test. -/
inductive StepW : Sys → Sys → Prop
  | wcheckExit (s : Sys) (h1 : s.pc = WPC.check) (h2 : s.st.close_writer = true) :
      StepW s { s with pc := WPC.exited }
  | wcheckEnter (s : Sys) (h1 : s.pc = WPC.check) (h2 : s.st.close_writer = false) :
      StepW s { s with pc := WPC.waiting }
  | wwake (s : Sys) (h1 : s.pc = WPC.waiting)
      (h2 : s.st.log_queue ≠ [] ∨ s.st.close_writer = true) :
      StepW s { s with pc := WPC.draining, lockHeld := true }
  | wpop (s : Sys) (e : QueueElement) (rest : List QueueElement)
      (h1 : s.pc = WPC.draining) (h2 : s.st.log_queue = e :: rest) :
      StepW s { s with
        st := { s.st with log_queue := rest }
        dispatched := s.dispatched ++ [⟨e, s.lockHeld⟩] }
  | wdone (s : Sys) (h1 : s.pc = WPC.draining) (h2 : s.st.log_queue = []) :
      StepW s { s with pc := WPC.check, lockHeld := false }

/-- All transitions of the system: a producer calling `add_to_queue`
(it must acquire `log_mutex`, so it can fire only while the writer does
not hold the lock), the `close_writer = true` assignment performed by
`stop_writer`, and the writer-thread transitions. -/
inductive Step : Sys → Sys → Prop
  | enq (s : Sys) (msg : String) (d : Destination) (h : s.lockHeld = false) :
      Step s { s with
        st := add_to_queue msg d s.st
        history := s.history ++ [⟨msg, d⟩] }
  | stopSet (s : Sys) :
      Step s { s with st := { s.st with close_writer := true } }
  | writer (s s' : Sys) (h : StepW s s') : Step s s'

/-- Reachability by any interleaving of producer, `stop_writer` and
writer steps. -/
def Reaches : Sys → Sys → Prop :=
  Relation.ReflTransGen Step

/-- Reachability by writer-thread steps alone. -/
def WriterReaches : Sys → Sys → Prop :=
  Relation.ReflTransGen StepW

/-- Invariant of every reachable state: the writer holds `log_mutex`
exactly while it is in the inner drain loop, every dispatch so far was
performed with the lock held, and the records dispatched so far followed
by the records still queued are exactly the records ever enqueued, in
enqueue order. -/
def SysInv (s : Sys) : Prop :=
  (s.pc = WPC.draining ↔ s.lockHeld = true) ∧
  (∀ ev ∈ s.dispatched, ev.lockHeld = true) ∧
  dispElems s.dispatched ++ s.st.log_queue = s.history

lemma sysInv_init : SysInv initSys := by
  refine ⟨?_, ?_, ?_⟩ <;> simp [initSys, initLogger, dispElems, SysInv]

lemma lockFree_of_not_draining {s : Sys} (hinv : SysInv s)
    (h : s.pc ≠ WPC.draining) : s.lockHeld = false := by
  rcases hinv with ⟨h1, -, -⟩
  by_contra hc
  exact h (h1.mpr (by simpa using hc))

lemma sysInv_stepW {s s' : Sys} (h : StepW s s') (hinv : SysInv s) : SysInv s' := by
  obtain ⟨hl, hd, hq⟩ := hinv
  cases h with
  | wcheckExit h1 h2 =>
    have hfree : s.lockHeld = false :=
      lockFree_of_not_draining ⟨hl, hd, hq⟩ (by simp [h1])
    exact ⟨by simp [hfree], hd, hq⟩
  | wcheckEnter h1 h2 =>
    have hfree : s.lockHeld = false :=
      lockFree_of_not_draining ⟨hl, hd, hq⟩ (by simp [h1])
    exact ⟨by simp [hfree], hd, hq⟩
  | wwake h1 h2 =>
    exact ⟨by simp, hd, hq⟩
  | wpop e rest h1 h2 =>
    have hheld : s.lockHeld = true := hl.mp h1
    refine ⟨by simpa using hl, ?_, ?_⟩
    · intro ev hev
      simp only [List.mem_append, List.mem_singleton] at hev
      rcases hev with hev | hev
      · exact hd ev hev
      · simp [hev, hheld]
    · simp only [dispElems, List.map_append, List.map_cons, List.map_nil]
      rw [List.append_assoc]
      simpa [dispElems, h2] using hq
  | wdone h1 h2 =>
    exact ⟨by simp, hd, hq⟩

lemma sysInv_step {s s' : Sys} (h : Step s s') (hinv : SysInv s) : SysInv s' := by
  cases h with
  | enq msg d hfree =>
    obtain ⟨hl, hd, hq⟩ := hinv
    refine ⟨by simpa using hl, hd, ?_⟩
    simp only [add_to_queue]
    rw [← List.append_assoc]
    simp [hq]
  | stopSet =>
    obtain ⟨hl, hd, hq⟩ := hinv
    exact ⟨by simpa using hl, hd, hq⟩
  | writer _ hw => exact sysInv_stepW hw hinv

lemma sysInv_reach {s' : Sys} (h : Reaches initSys s') : SysInv s' := by
  induction h with
  | refl => exact sysInv_init
  | tail _ hbc ih => exact sysInv_step hbc ih

/-- The state in which the writer thread comes to rest after being woken
with the shutdown flag set while parked in `log_cv.wait`: it drains the
whole queue (each record dispatched with the lock held), releases the
lock and exits. -/
def drainFinal (s : Sys) : Sys :=
  { s with
    pc := WPC.exited
    lockHeld := false
    st := { s.st with log_queue := [] }
    dispatched := s.dispatched ++ s.st.log_queue.map (fun e => ⟨e, true⟩) }

lemma drain_from_draining : ∀ (q : List QueueElement) (s : Sys),
    s.pc = WPC.draining → s.lockHeld = true → s.st.close_writer = true →
    s.st.log_queue = q →
    WriterReaches s
      { s with
        pc := WPC.exited
        lockHeld := false
        st := { s.st with log_queue := [] }
        dispatched := s.dispatched ++ q.map (fun e => ⟨e, true⟩) } := by
  intro q
  induction q with
  | nil =>
    intro s h1 hl h2 h3
    have st1 : StepW s { s with pc := WPC.check, lockHeld := false } :=
      StepW.wdone s h1 h3
    have st2 : StepW { s with pc := WPC.check, lockHeld := false }
        { s with pc := WPC.exited, lockHeld := false } :=
      StepW.wcheckExit { s with pc := WPC.check, lockHeld := false } rfl (by simpa using h2)
    have heq : ({ s with
        pc := WPC.exited
        lockHeld := false
        st := { s.st with log_queue := [] }
        dispatched := s.dispatched ++ List.map (fun e => (⟨e, true⟩ : DispatchEvent)) [] } : Sys) =
        { s with pc := WPC.exited, lockHeld := false } := by
      cases s with
      | mk st pc lk disp hist => cases st; simp_all
    rw [heq]
    exact Relation.ReflTransGen.head st1 (Relation.ReflTransGen.single st2)
  | cons e rest ih =>
    intro s h1 hl h2 h3
    have st1 : StepW s { s with
        st := { s.st with log_queue := rest }
        dispatched := s.dispatched ++ [⟨e, s.lockHeld⟩] } :=
      StepW.wpop s e rest h1 h3
    have ihr := ih { s with
        st := { s.st with log_queue := rest }
        dispatched := s.dispatched ++ [⟨e, s.lockHeld⟩] }
      (by simpa using h1) (by simpa using hl) (by simpa using h2) rfl
    have heq : ({ s with
        pc := WPC.exited
        lockHeld := false
        st := { s.st with log_queue := [] }
        dispatched := (s.dispatched ++ [⟨e, s.lockHeld⟩]) ++
          rest.map (fun x => (⟨x, true⟩ : DispatchEvent)) } : Sys) =
        { s with
          pc := WPC.exited
          lockHeld := false
          st := { s.st with log_queue := [] }
          dispatched := s.dispatched ++
            (e :: rest).map (fun x => (⟨x, true⟩ : DispatchEvent)) } := by
      cases s with
      | mk st pc lk disp hist => simp_all
    exact Relation.ReflTransGen.head st1 (heq ▸ ihr)

/-- State after a producer enqueues the record `("x", std_out)` while the
writer thread is at its outer loop test. -/
def sys1 : Sys :=
  { initSys with
    st := add_to_queue "x" Destination.std_out initSys.st
    history := initSys.history ++ [⟨"x", Destination.std_out⟩] }

/-- State after `stop_writer()` has set `close_writer`, with the record
still queued. -/
def sys2 : Sys :=
  { sys1 with st := { sys1.st with close_writer := true } }

/-- State after the writer's outer `while (!close_writer.load())` test
observes the flag and the thread exits. -/
def sys3 : Sys :=
  { sys2 with pc := WPC.exited }

/-- C1, counterexample.  There is an interleaving in which a record is
enqueued, then `stop_writer()` sets the shutdown flag (so the record is
in the queue at the moment `stop_writer()` is called), and the writer —
which was between its inner drain and the outer loop test — observes the
flag and exits at once.  `stop_writer()`'s `join` then returns with the
queue still holding the record and nothing ever dispatched, refuting
the claim that on return the queue is empty and every record queued at
call time has been dispatched. -/
theorem stop_writer_can_return_with_queued_record :
    Step initSys sys1 ∧ Step sys1 sys2 ∧ Step sys2 sys3 ∧
    sys2.st.close_writer = true ∧
    sys2.st.log_queue = [⟨"x", Destination.std_out⟩] ∧
    sys3.pc = WPC.exited ∧
    sys3.st.log_queue = [⟨"x", Destination.std_out⟩] ∧
    sys3.dispatched = [] := by
  refine ⟨Step.enq initSys "x" Destination.std_out rfl,
    Step.stopSet sys1,
    Step.writer sys2 sys3 (StepW.wcheckExit sys2 rfl rfl),
    rfl, rfl, rfl, rfl, rfl⟩

/-- C1, amended.  `stop_writer()` blocks until the writer thread has
exited (join semantics).  If the writer is parked in `log_cv.wait` when
the shutdown flag is set, then it wakes, drains every record then in the
queue (dispatching them in order) and exits with the queue empty — but
when the flag is observed at the outer loop test instead, the writer
exits immediately and queued records may remain (see the
counterexample). -/
theorem stop_writer_join_and_drain_from_wait (s : Sys)
    (h1 : s.pc = WPC.waiting) (h2 : s.st.close_writer = true) :
    WriterReaches s (drainFinal s) ∧
    (drainFinal s).pc = WPC.exited ∧
    (drainFinal s).st.log_queue = [] ∧
    dispElems (drainFinal s).dispatched = dispElems s.dispatched ++ s.st.log_queue := by
  have st0 : StepW s { s with pc := WPC.draining, lockHeld := true } :=
    StepW.wwake s h1 (Or.inr h2)
  have hd := drain_from_draining s.st.log_queue
    { s with pc := WPC.draining, lockHeld := true } rfl rfl (by simpa using h2) rfl
  refine ⟨Relation.ReflTransGen.head st0 hd, rfl, rfl, ?_⟩
  have hmap : ∀ q : List QueueElement,
      List.map (fun ev : DispatchEvent => ev.elem)
        (List.map (fun e => (⟨e, true⟩ : DispatchEvent)) q) = q := by
    intro q
    induction q with
    | nil => rfl
    | cons a l ihq => simpa using ihq
  simp only [drainFinal, dispElems, List.map_append, hmap]

/-- A writer parked in the wait with the shutdown flag already set and
one record queued. -/
def waitSys : Sys :=
  { st := { initLogger with
      close_writer := true
      log_queue := [⟨"z", Destination.file⟩] }
    pc := WPC.waiting
    lockHeld := false
    dispatched := []
    history := [⟨"z", Destination.file⟩] }

/-- Witness for the amended C1 theorem at a concrete waiting state. -/
theorem stop_writer_join_and_drain_from_wait_witness :
    WriterReaches waitSys (drainFinal waitSys) ∧
    (drainFinal waitSys).pc = WPC.exited ∧
    (drainFinal waitSys).st.log_queue = [] ∧
    dispElems (drainFinal waitSys).dispatched =
      dispElems waitSys.dispatched ++ waitSys.st.log_queue :=
  stop_writer_join_and_drain_from_wait waitSys rfl rfl

/-- C9.  The flag `close_writer` is never reset: every transition of the
system preserves `close_writer = true` (only `stop_writer` writes it,
and only to `true`).  Consequently a writer thread (re)created by
`init_writer()` after a completed `stop_writer()` starts at the outer
loop test with the flag set: its only possible step is to exit at once,
dispatching nothing, and an exited writer takes no further step, so no
later record is ever dispatched. -/
theorem close_writer_never_reset_restart_exits :
    (∀ s s' : Sys, Step s s' → s.st.close_writer = true → s'.st.close_writer = true) ∧
    (∀ s s' : Sys, s.pc = WPC.check → s.st.close_writer = true → StepW s s' →
      s'.pc = WPC.exited ∧ s'.dispatched = s.dispatched) ∧
    (∀ s s' : Sys, s.pc = WPC.exited → ¬ StepW s s') := by
  refine ⟨?_, ?_, ?_⟩
  · intro s s' h hc
    cases h with
    | enq msg d hfree => simpa [add_to_queue] using hc
    | stopSet => simp
    | writer _ hw => cases hw <;> simpa using hc
  · intro s s' hpc hc hw
    cases hw with
    | wcheckExit h1 h2 => exact ⟨rfl, rfl⟩
    | wcheckEnter h1 h2 => simp [hc] at h2
    | wwake h1 h2 => simp [hpc] at h1
    | wpop e rest h1 h2 => simp [hpc] at h1
    | wdone h1 h2 => simp [hpc] at h1
  · intro s s' hpc hw
    cases hw with
    | wcheckExit h1 h2 => simp [hpc] at h1
    | wcheckEnter h1 h2 => simp [hpc] at h1
    | wwake h1 h2 => simp [hpc] at h1
    | wpop e rest h1 h2 => simp [hpc] at h1
    | wdone h1 h2 => simp [hpc] at h1

/-- A system state as seen by a writer thread restarted after a
completed shutdown: outer loop test, flag already set. -/
def restartSys : Sys :=
  { initSys with st := { initSys.st with close_writer := true } }

/-- Witness for C9 at a concrete restarted writer: its single possible
step exits without dispatching. -/
theorem close_writer_never_reset_restart_exits_witness :
    ({ restartSys with pc := WPC.exited } : Sys).pc = WPC.exited ∧
    ({ restartSys with pc := WPC.exited } : Sys).dispatched = restartSys.dispatched :=
  close_writer_never_reset_restart_exits.2.1 restartSys
    { restartSys with pc := WPC.exited } rfl rfl
    (StepW.wcheckExit restartSys rfl rfl)

/-- State after a producer enqueues `("y", std_out)` at startup. -/
def t1 : Sys :=
  { initSys with
    st := add_to_queue "y" Destination.std_out initSys.st
    history := initSys.history ++ [⟨"y", Destination.std_out⟩] }

/-- State after the writer passes its outer test towards the wait. -/
def t2 : Sys :=
  { t1 with pc := WPC.waiting }

/-- State after the wait predicate sees the nonempty queue and the
writer reacquires `log_mutex`, entering the drain loop. -/
def t3 : Sys :=
  { t2 with pc := WPC.draining, lockHeld := true }

/-- State after the writer pops the record and writes it to standard
output — with `log_mutex` still held. -/
def t4 : Sys :=
  { t3 with
    st := { t3.st with log_queue := [] }
    dispatched := t3.dispatched ++ [⟨⟨"y", Destination.std_out⟩, t3.lockHeld⟩] }

lemma reach_t4 : Reaches initSys t4 := by
  have h1 : Step initSys t1 := Step.enq initSys "y" Destination.std_out rfl
  have h2 : Step t1 t2 := Step.writer t1 t2 (StepW.wcheckEnter t1 rfl rfl)
  have h3 : Step t2 t3 :=
    Step.writer t2 t3 (StepW.wwake t2 rfl (Or.inl (by decide)))
  have h4 : Step t3 t4 :=
    Step.writer t3 t4 (StepW.wpop t3 ⟨"y", Destination.std_out⟩ [] rfl rfl)
  exact Relation.ReflTransGen.head h1
    (Relation.ReflTransGen.head h2
      (Relation.ReflTransGen.head h3 (Relation.ReflTransGen.single h4)))

/-- C5, counterexample.  In the execution in which a record is enqueued
and the writer wakes and dispatches it, the dispatch (the
`std::cout << elem.message` of the `switch` in `writer`) happens with
`log_mutex` held: the reachable state `t4` records exactly one dispatch
event and its lock flag is `true`, refuting the claim that the queue
lock is not held while a record's payload is written to its sink. -/
theorem writer_io_holds_lock_cex :
    Reaches initSys t4 ∧
    t4.dispatched = [⟨⟨"y", Destination.std_out⟩, true⟩] :=
  ⟨reach_t4, rfl⟩

/-- C5, amended.  The writer performs sink I/O while holding
`log_mutex`: in every reachable state, every dispatch performed so far
was performed with the lock held; and while the writer holds the lock no
producer can complete `add_to_queue` (no step taken from a lock-holding
state enqueues anything), so producers are blocked on the lock for the
duration of the writer's drain, I/O included. -/
theorem writer_io_under_lock :
    (∀ s' : Sys, Reaches initSys s' → ∀ ev ∈ s'.dispatched, ev.lockHeld = true) ∧
    (∀ s s' : Sys, s.lockHeld = true → Step s s' → s'.history = s.history) := by
  refine ⟨?_, ?_⟩
  · intro s' h
    exact (sysInv_reach h).2.1
  · intro s s' hl h
    cases h with
    | enq msg d hfree => simp [hl] at hfree
    | stopSet => rfl
    | writer _ hw => cases hw <;> rfl

/-- Witness for the amended C5 theorem: the concrete dispatch of the
reachable trace ending in `t4` indeed carries the lock flag. -/
theorem writer_io_under_lock_witness :
    ({ elem := ⟨"y", Destination.std_out⟩, lockHeld := true } : DispatchEvent).lockHeld = true :=
  writer_io_under_lock.1 t4 reach_t4
    ⟨⟨"y", Destination.std_out⟩, true⟩ (by decide)

/-- C2.  `add_to_queue` appends its record at the tail of `log_queue`
and grows its length by exactly one; and in every reachable state of the
concurrent system the records dispatched so far followed by the records
still queued equal the full enqueue history in order, so for each
destination the dispatched subsequence for that destination is exactly
an order-preserving prefix of that destination's enqueue sequence:
records are dispatched per destination in FIFO enqueue order. -/
theorem enqueue_fifo_per_destination :
    (∀ (s : LoggerState) (msg : String) (d : Destination),
      (add_to_queue msg d s).log_queue = s.log_queue ++ [⟨msg, d⟩] ∧
      (add_to_queue msg d s).log_queue.length = s.log_queue.length + 1) ∧
    (∀ s' : Sys, Reaches initSys s' →
      dispElems s'.dispatched ++ s'.st.log_queue = s'.history ∧
      ∀ d : Destination,
        s'.history.filter (fun e => e.dest = d) =
          (dispElems s'.dispatched).filter (fun e => e.dest = d) ++
            s'.st.log_queue.filter (fun e => e.dest = d)) := by
  refine ⟨?_, ?_⟩
  · intro s msg d
    exact ⟨rfl, by simp [add_to_queue]⟩
  · intro s' h
    have hq := (sysInv_reach h).2.2
    refine ⟨hq, ?_⟩
    intro d
    rw [← hq, List.filter_append]

/-- Witness for C2 at a concrete enqueue and the concrete reachable
state `t4`. -/
theorem enqueue_fifo_per_destination_witness :
    (add_to_queue "m" Destination.file initLogger).log_queue.length =
      initLogger.log_queue.length + 1 ∧
    dispElems t4.dispatched ++ t4.st.log_queue = t4.history :=
  ⟨(enqueue_fifo_per_destination.1 initLogger "m" Destination.file).2,
   (enqueue_fifo_per_destination.2 t4 reach_t4).1⟩

/-- C3.  A `log(lvl, ...)` call with `get_level() > lvl` (the level
strictly below the configured threshold) is a complete no-op: the state
is unchanged (no queue entry, so no sink write ever results, and the
queue length is unchanged) and no event is performed — in particular
`log_to_string` is never invoked, so there is no formatting. -/
theorem log_below_threshold_noop (lvl : Level) (msg : String) (s : LoggerState)
    (h : levelNat (get_level s) > levelNat lvl) :
    log lvl msg s = (s, []) := by
  unfold log
  rw [if_pos h]

/-- Witness for C3: with the default threshold `warn`, `log(info, "x")`
changes nothing and performs no event. -/
theorem log_below_threshold_noop_witness :
    log Level.info "x" initLogger = (initLogger, []) :=
  log_below_threshold_noop Level.info "x" initLogger (by decide)

/-- C4.  At or above the threshold, one `log` call enqueues one entry
per active destination, each carrying the same formatted text: always
one tagged `std_out`; one tagged `file` exactly when the log file is
open; one tagged `socket` exactly when `log_socket > 0`; and exactly one
`format` event occurs.  In particular, with the initial configuration
(threshold `warn`, no file, no socket), `log(error, ...)` makes the
queue length exactly 1. -/
theorem log_fanout_per_destination (lvl : Level) (msg : String) (s : LoggerState)
    (h : levelNat (get_level s) ≤ levelNat lvl) :
    (log lvl msg s).1.log_queue =
      s.log_queue ++ [⟨msg, Destination.std_out⟩] ++
        (if is_file_open s then [⟨msg, Destination.file⟩] else []) ++
        (if s.log_socket > 0 then [⟨msg, Destination.socket⟩] else []) ∧
    (log lvl msg s).2 =
      Event.format :: (Event.enqueue msg Destination.std_out ::
        ((if is_file_open s then [Event.enqueue msg Destination.file] else []) ++
          (if s.log_socket > 0 then [Event.enqueue msg Destination.socket] else []))) ∧
    (log Level.error msg initLogger).1.log_queue.length = 1 := by
  have hn : ¬ levelNat (get_level s) > levelNat lvl := by omega
  refine ⟨?_, ?_, ?_⟩
  · by_cases hf : s.fileOpen <;> by_cases hs : s.log_socket > 0 <;>
      simp [log, log_to_stdout_str, log_to_file_str, log_to_socket_str,
        add_to_queue, is_file_open, hn, hf, hs, List.append_assoc]
  · by_cases hf : s.fileOpen <;> by_cases hs : s.log_socket > 0 <;>
      simp [log, log_to_stdout_str, log_to_file_str, log_to_socket_str,
        add_to_queue, is_file_open, hn, hf, hs]
  · simp [log, log_to_stdout_str, add_to_queue, is_file_open, get_level,
      initLogger, levelNat]

/-- Witness for C4 at the initial configuration and level `error`. -/
theorem log_fanout_per_destination_witness :
    (log Level.error "e" initLogger).1.log_queue =
      initLogger.log_queue ++ [⟨"e", Destination.std_out⟩] ++ [] ++ [] ∧
    (log Level.error "e" initLogger).1.log_queue.length = 1 := by
  have h := log_fanout_per_destination Level.error "e" initLogger (by decide)
  refine ⟨?_, h.2.2⟩
  have h1 := h.1
  simpa [initLogger, is_file_open] using h1

/-- C8.  When the log file is open, the formatted-logging overload
`log_to_file(lvl, fmt, ...)` formats and enqueues a file-tagged record
even when the level is strictly below the threshold: its guard
`get_level() > lvl && !is_file_open()` fails as soon as the file is
open, so the threshold alone does not suppress the call. -/
theorem log_to_file_bypasses_threshold_when_open (lvl : Level) (msg : String)
    (s : LoggerState) (hopen : is_file_open s = true)
    (hbelow : levelNat (get_level s) > levelNat lvl) :
    log_to_file_fmt lvl msg s =
      (add_to_queue msg Destination.file s,
        [Event.format, Event.enqueue msg Destination.file]) ∧
    (log_to_file_fmt lvl msg s).1.log_queue = s.log_queue ++ [⟨msg, Destination.file⟩] := by
  have hng : ¬ (levelNat (get_level s) > levelNat lvl ∧ is_file_open s = false) := by
    simp [hopen]
  constructor
  · unfold log_to_file_fmt
    rw [if_neg hng]
  · unfold log_to_file_fmt
    rw [if_neg hng]
    rfl

/-- Witness for C8: file open, threshold `warn`, level `debug`. -/
theorem log_to_file_bypasses_threshold_when_open_witness :
    (log_to_file_fmt Level.debug "d" { initLogger with fileOpen := true }).1.log_queue =
      ({ initLogger with fileOpen := true } : LoggerState).log_queue ++
        [⟨"d", Destination.file⟩] :=
  (log_to_file_bypasses_threshold_when_open Level.debug "d"
    { initLogger with fileOpen := true } rfl (by decide)).2

/-- C6, counterexample.  Take a state with a connected socket
(`log_socket = 3`).  `close_socket()` does issue the OS `close(3)` call,
but `logger::log_socket` is not cleared, so the subsequent open-socket
check `log_socket > 0` is still true — refuting the claim that the
check is false after `close_socket()` returns. -/
theorem close_socket_not_cleared_cex :
    (close_socket { initLogger with log_socket := 3 }).1.log_socket > 0 ∧
    (close_socket { initLogger with log_socket := 3 }).2 = [OsEvent.closeFd 3] := by
  constructor
  · decide
  · decide

/-- C6, amended.  `close_file()` does clear its handle: afterwards
`is_file_open()` is false.  `close_socket()` closes the OS descriptor
when `log_socket > 0` but leaves `logger::log_socket` unchanged, so
subsequent `log_socket > 0` checks behave exactly as before the call. -/
theorem close_handles_behavior (s : LoggerState) :
    is_file_open (close_file s) = false ∧
    (close_socket s).1 = s ∧
    (close_socket s).2 =
      (if s.log_socket > 0 then [OsEvent.closeFd s.log_socket] else []) := by
  refine ⟨?_, ?_, ?_⟩
  · by_cases h : s.fileOpen <;> simp [close_file, is_file_open, h]
  · by_cases h : s.log_socket > 0 <;> simp [close_socket, h]
  · by_cases h : s.log_socket > 0 <;> simp [close_socket, h]

lemma string_eq_empty_of_length_zero : ∀ q : String, q.length = 0 → q = "" := by
  intro q hq
  cases q with
  | mk data =>
    cases data with
    | nil => rfl
    | cons a l => simp [String.length] at hq

lemma processLine_none_iff (fs : FS) (l : List Char) (s : LoggerState) :
    (processLine fs l s).2 = none ↔ lineOk fs l = true := by
  by_cases h0 : l.length = 0
  · simp [processLine, lineOk, h0]
  by_cases hk1 : stripSpace (keyOf l) = "level".data
  · cases hlv : levelOfName (stripSpace (valueOf l)) <;>
      simp [processLine, lineOk, h0, hk1, hlv]
  by_cases hk2 : stripSpace (keyOf l) = "flags".data
  · cases hfl : flagsLoop (splitCommas (stripSpace (valueOf l))) 0 with
    | mk bits err =>
      cases err <;> simp [processLine, lineOk, h0, hk1, hk2, hfl]
  by_cases hk3 : stripSpace (keyOf l) = "file".data
  · cases he : fs.pathExists (String.mk (stripSpace (valueOf l))) <;>
      cases ho : fs.openOk (String.mk (stripSpace (valueOf l))) <;>
      cases hg : fs.openGood (String.mk (stripSpace (valueOf l))) <;>
      simp [processLine, lineOk, set_file, h0, hk1, hk2, hk3, he, ho, hg]
  · simp [processLine, lineOk, h0, hk1, hk2, hk3]

lemma runLines_ok_iff (fs : FS) :
    ∀ (content : List (List Char)) (s : LoggerState),
    (runLines fs content s).1 = Except.ok 0 ↔ ∀ l ∈ content, lineOk fs l = true := by
  intro content
  induction content with
  | nil =>
    intro s
    simp [runLines]
  | cons l ls ih =>
    intro s
    cases hp : processLine fs l s with
    | mk s1 err =>
      cases err with
      | none =>
        have hok : lineOk fs l = true := by
          rw [← processLine_none_iff fs l s, hp]
        rw [show runLines fs (l :: ls) s = runLines fs ls s1 by simp [runLines, hp]]
        simp [ih, hok]
      | some e =>
        have hnok : lineOk fs l ≠ true := by
          intro hLk
          have hcontra := (processLine_none_iff fs l s).mpr hLk
          rw [hp] at hcontra
          simp at hcontra
        rw [show runLines fs (l :: ls) s = (Except.error e, s1) by simp [runLines, hp]]
        constructor
        · intro hcontra
          simp at hcontra
        · intro hall
          exact absurd (hall l (by simp)) hnok

lemma runLines_append (fs : FS) :
    ∀ (pre rest : List (List Char)) (s s1 : LoggerState),
    runLines fs pre s = (Except.ok 0, s1) →
    runLines fs (pre ++ rest) s = runLines fs rest s1 := by
  intro pre
  induction pre with
  | nil =>
    intro rest s s1 h
    simp [runLines] at h
    rw [List.nil_append, h]
  | cons l ls ih =>
    intro rest s s1 h
    cases hp : processLine fs l s with
    | mk s2 err =>
      cases err with
      | some e =>
        rw [show runLines fs (l :: ls) s = (Except.error e, s2) by simp [runLines, hp]] at h
        simp at h
      | none =>
        have h' : runLines fs ls s2 = (Except.ok 0, s1) := by
          rw [show runLines fs (l :: ls) s = runLines fs ls s2 by simp [runLines, hp]] at h
          exact h
        calc runLines fs (l :: ls ++ rest) s = runLines fs (ls ++ rest) s2 := by
              simp [runLines, hp]
          _ = runLines fs rest s1 := ih rest s2 s1 h'

lemma processLine_invalid_key (fs : FS) (l : List Char) (s : LoggerState)
    (h0 : l ≠ []) (h1 : stripSpace (keyOf l) ≠ "level".data)
    (h2 : stripSpace (keyOf l) ≠ "flags".data)
    (h3 : stripSpace (keyOf l) ≠ "file".data) :
    processLine fs l s = (s, some "Invalid key in file") := by
  have hlen : ¬ l.length = 0 := by simpa [List.length_eq_zero] using h0
  simp [processLine, hlen, h1, h2, h3]

/-- C7.  Configuration failures are reported synchronously as error
values: `set_file` returns an error when the path does not exist or the
file cannot be opened, and returns `0` with the file open on success;
`settings_file` returns an error when the path is empty or the file does
not exist, and otherwise returns `Except.ok 0` exactly when every line
is acceptable (valid `level` value, valid `flags` values, valid key, and
`file` values that can be opened) — so it returns an error value exactly
when some line is invalid.  No failure is a fatal fault: every outcome
is an ordinary return value. -/
theorem config_errors_reported :
    (∀ (fs : FS) (p : String) (s : LoggerState),
      (fs.pathExists p = false →
        (set_file fs p s).1 = Except.error "File does not exist") ∧
      (fs.pathExists p = true → fs.openOk p = false →
        (set_file fs p s).1 = Except.error "Could not open log file") ∧
      (fs.pathExists p = true → fs.openOk p = true → fs.openGood p = true →
        (set_file fs p s).1 = Except.ok 0 ∧ (set_file fs p s).2.fileOpen = true)) ∧
    (∀ (fs : FS) (p : String) (content : List (List Char)) (s : LoggerState),
      (p = "" →
        (settings_file fs p content s).1 = Except.error "Settings file path is empty") ∧
      (p ≠ "" → fs.pathExists p = false →
        (settings_file fs p content s).1 = Except.error "Settings file does not exist") ∧
      (p ≠ "" → fs.pathExists p = true →
        ((settings_file fs p content s).1 = Except.ok 0 ↔
          ∀ l ∈ content, lineOk fs l = true))) := by
  constructor
  · intro fs p s
    refine ⟨?_, ?_, ?_⟩
    · intro he
      simp [set_file, he]
    · intro he ho
      simp [set_file, he, ho]
    · intro he ho hg
      constructor <;> simp [set_file, he, ho, hg]
  · intro fs p content s
    have hlen1 : p ≠ "" → ¬ p.length = 0 := by
      intro h hc
      exact h (string_eq_empty_of_length_zero p hc)
    refine ⟨?_, ?_, ?_⟩
    · intro hp
      subst hp
      simp [settings_file]
    · intro hp he
      simp [settings_file, hlen1 hp, he]
    · intro hp he
      rw [show settings_file fs p content s = runLines fs content s by
        simp [settings_file, hlen1 hp, he]]
      exact runLines_ok_iff fs content s

/-- A file system in which every path exists and opens cleanly. -/
def fsAll : FS :=
  { pathExists := fun _ => true, openOk := fun _ => true, openGood := fun _ => true }

/-- A file system in which no path exists. -/
def fsNone : FS :=
  { pathExists := fun _ => false, openOk := fun _ => false, openGood := fun _ => false }

/-- Witness for C7: a nonexistent path makes `set_file` fail with the
source's error string, and an existing, well-formed settings file
returns `0`. -/
theorem config_errors_reported_witness :
    (set_file fsNone "log.txt" initLogger).1 = Except.error "File does not exist" ∧
    (settings_file fsAll "cfg" [] initLogger).1 = Except.ok 0 :=
  ⟨(config_errors_reported.1 fsNone "log.txt" initLogger).1 rfl,
    ((config_errors_reported.2 fsAll "cfg" [] initLogger).2.2 (by decide) rfl).mpr
      (by intro l hl; cases hl)⟩

/-- C10.  `settings_file` applies settings while it parses: if a prefix
of lines applies cleanly, producing state `s1`, and a later line has an
invalid key, the call returns the error and the final state is exactly
`s1` — the level, flags and file settings applied by the earlier lines
remain in effect and nothing is rolled back to the pre-call state. -/
theorem settings_file_not_atomic (fs : FS) (p : String)
    (pre rest : List (List Char)) (bad : List Char) (s s1 : LoggerState)
    (hp : p ≠ "") (hex : fs.pathExists p = true)
    (hpre : runLines fs pre s = (Except.ok 0, s1))
    (hb : bad ≠ [])
    (hk1 : stripSpace (keyOf bad) ≠ "level".data)
    (hk2 : stripSpace (keyOf bad) ≠ "flags".data)
    (hk3 : stripSpace (keyOf bad) ≠ "file".data) :
    settings_file fs p (pre ++ bad :: rest) s =
      (Except.error "Invalid key in file", s1) := by
  have hplen : ¬ p.length = 0 := fun hc => hp (string_eq_empty_of_length_zero p hc)
  rw [show settings_file fs p (pre ++ bad :: rest) s =
      runLines fs (pre ++ bad :: rest) s by simp [settings_file, hplen, hex]]
  rw [runLines_append fs pre (bad :: rest) s s1 hpre]
  rw [show runLines fs (bad :: rest) s1 = (Except.error "Invalid key in file", s1) by
    simp [runLines, processLine_invalid_key fs bad s1 hb hk1 hk2 hk3]]

/-- Witness for C10: `level=debug` followed by the invalid line `bogus`
returns the invalid-key error while leaving the level set to `debug`
(the pre-call level was `warn`). -/
theorem settings_file_not_atomic_witness :
    settings_file fsAll "cfg" ["level=debug".data, "bogus".data] initLogger =
      (Except.error "Invalid key in file",
        { initLogger with log_level := Level.debug }) := by
  have h := settings_file_not_atomic fsAll "cfg" ["level=debug".data] []
    "bogus".data initLogger { initLogger with log_level := Level.debug }
    (by decide) rfl rfl (by decide) (by decide) (by decide) (by decide)
  simpa using h
